import Mathlib

/-
Verification of the invoice-processing backend: a shallow embedding of the
field accessors, the fixed-schema spreadsheet export, the batch-request
builder and the upload filename sanitizer, with theorems settling the
specified behaviours.

JSON values produced by `json.loads` are modelled by the inductive `Json`;
Python numbers (int/float) are carried as rationals, which is faithful here
because the program never performs arithmetic on them, it only moves them
around.  Python truthiness is modelled by `truthy`.
-/

namespace Invoice

inductive Json where
  | null
  | bool (b : Bool)
  | num (q : ℚ)
  | str (s : String)
  | arr (xs : List Json)
  | obj (kvs : List (String × Json))

/-- Python truthiness of a JSON value (`bool(x)`). -/
def truthy : Json → Bool
  | .null => false
  | .bool b => b
  | .num q => if q = 0 then false else true
  | .str s => if s = "" then false else true
  | .arr xs => !xs.isEmpty
  | .obj kvs => !kvs.isEmpty

/-- Is the value a JSON object (a Python `dict`)? -/
def isObj : Json → Bool
  | .obj _ => true
  | _ => false

/-- Is the value a Python `int`/`float` in the sense of
`isinstance(c, (int, float))`?  Note Python `bool` is a subclass of `int`. -/
def isNumLike : Json → Bool
  | .num _ => true
  | .bool _ => true
  | _ => false

/-- `dict.get` on a JSON object: the value bound to key `k`, if present. -/
def lookupObj (kvs : List (String × Json)) (k : String) : Option Json :=
  match kvs.find? (fun p => p.1 == k) with
  | some p => some p.2
  | none => none

/-- Python `x or ""` applied to an optional value (`dict.get` returns `None`
for a missing key, and `None or ""` is `""`). -/
def orEmptyStr (o : Option Json) : Json :=
  match o with
  | some v => if truthy v then v else .str ""
  | none => .str ""

/-- Source `safe_get(d, *keys, default=None)`: walk nested dicts, giving up
(`none`, the caller's default) on a missing key or a non-dict value at any
step.  Call sites supply their `default` via `Option.getD`. -/
def safe_get (d : Json) (keys : List String) : Option Json :=
  match keys with
  | [] => some d
  | k :: ks =>
    match d with
    | .obj kvs =>
      match lookupObj kvs k with
      | some v => safe_get v ks
      | none => none
    | _ => none

/-- Source `get_field(fields, field_name)`: the named field's dict, or `{}`
when `fields` is not a dict, the key is missing, or the value is not a dict. -/
def get_field (fields : Json) (field_name : String) : List (String × Json) :=
  match fields with
  | .obj kvs =>
    match lookupObj kvs field_name with
    | some (.obj f) => f
    | some _ => []
    | none => []
  | _ => []

/-- Source `get_confidence(field)`: the `confidence` entry when it is an
`int`/`float` (which includes Python booleans), else `None`. -/
def get_confidence (field : List (String × Json)) : Option Json :=
  match lookupObj field "confidence" with
  | some c => if isNumLike c then some c else none
  | none => none

/-- Source `get_value_string(field)`: `field.get("valueString") or ""`. -/
def get_value_string (field : List (String × Json)) : Json :=
  orEmptyStr (lookupObj field "valueString")

/-- Source `get_value_date(field)`: `field.get("valueDate") or ""`. -/
def get_value_date (field : List (String × Json)) : Json :=
  orEmptyStr (lookupObj field "valueDate")

/-- Source `get_value_currency_amount(field)`:
`safe_get(field, "valueCurrency", "amount", default="") or ""`. -/
def get_value_currency_amount (field : List (String × Json)) : Json :=
  orEmptyStr (safe_get (.obj field) ["valueCurrency", "amount"])

/-- Source `get_value_currency_code(field)`:
`safe_get(field, "valueCurrency", "currencyCode", default="") or ""`. -/
def get_value_currency_code (field : List (String × Json)) : Json :=
  orEmptyStr (safe_get (.obj field) ["valueCurrency", "currencyCode"])

/-- The confidence cell as written at each row position in the source:
`get_confidence(x) or ""`. -/
def conf_cell (field : List (String × Json)) : Json :=
  orEmptyStr (get_confidence field)

/-- The rational 0.9, written in normal form so that the kernel can evaluate
comparisons on it (the decimal literal elaborates through `Rat.ofScientific`,
which does not reduce definitionally).  `q09_val` ties it to `0.9`. -/
def q09 : ℚ := ⟨9, 10, by decide, by decide⟩

theorem q09_val : q09 = (0.9 : ℚ) := by
  rw [q09, Rat.mk'_eq_divInt, Rat.divInt_eq_div]; norm_num

/-- The fixed export header row (source `headers` list, in order). -/
def xlsx_headers : List String :=
  [ "InvoiceId",
    "InvoiceId_confidence",
    "VendorAddressRecipient",
    "VendorAddressRecipient_confidence",
    "VendorTaxId",
    "VendorTaxId_confidence",
    "CustomerAddressRecipient",
    "CustomerAddressRecipient_confidence",
    "CustomerTaxId",
    "CustomerTaxId_confidence",
    "InvoiceDate",
    "InvoiceDate_confidence",
    "DueDate",
    "DueDate_confidence",
    "InvoiceTotal_amount",
    "InvoiceTotal_currencyCode",
    "InvoiceTotal_confidence",
    "SubTotal_amount",
    "SubTotal_currencyCode",
    "SubTotal_confidence",
    "TotalTax_amount",
    "TotalTax_currencyCode",
    "TotalTax_confidence" ]

/-- The per-document row built in the export loop (source `row = [...]`),
from the `fields` value of the document (`documents[0].get("fields") or {}`,
which need not be a dict). -/
def invoice_row (fields : Json) : List Json :=
  let invoice_id := get_field fields "InvoiceId"
  let vendor_addr_rec := get_field fields "VendorAddressRecipient"
  let vendor_tax := get_field fields "VendorTaxId"
  let cust_addr_rec := get_field fields "CustomerAddressRecipient"
  let cust_tax := get_field fields "CustomerTaxId"
  let invoice_date := get_field fields "InvoiceDate"
  let due_date := get_field fields "DueDate"
  let invoice_total := get_field fields "InvoiceTotal"
  let sub_total := get_field fields "SubTotal"
  let total_tax := get_field fields "TotalTax"
  [ get_value_string invoice_id, conf_cell invoice_id,
    get_value_string vendor_addr_rec, conf_cell vendor_addr_rec,
    get_value_string vendor_tax, conf_cell vendor_tax,
    get_value_string cust_addr_rec, conf_cell cust_addr_rec,
    get_value_string cust_tax, conf_cell cust_tax,
    get_value_date invoice_date, conf_cell invoice_date,
    get_value_date due_date, conf_cell due_date,
    get_value_currency_amount invoice_total,
    get_value_currency_code invoice_total,
    conf_cell invoice_total,
    get_value_currency_amount sub_total,
    get_value_currency_code sub_total,
    conf_cell sub_total,
    get_value_currency_amount total_tax,
    get_value_currency_code total_tax,
    conf_cell total_tax ]

/-- Python exceptions the export loop can raise and does not catch. -/
inductive PyErr where
  | jsonDecodeError
  | keyError
  | attributeError
  | typeError
  | indexError
deriving DecidableEq

/-- An error response of the export endpoint: either an uncaught Python
exception, or an `HTTPException(status, detail)` raised on purpose. -/
inductive ExportErr where
  | py (e : PyErr)
  | http (status : Nat) (detail : String)
deriving DecidableEq

/-- Source `blob.name.lower().endswith(".json")`. -/
def ends_with_json (name : String) : Bool :=
  ".json".toList.isSuffixOf (name.toList.map Char.toLower)

/-- The `documents` value of one parsed result file:
`safe_get(doc, "analyzeResult", "documents", default=[])`. -/
def docs_value (doc : Json) : Json :=
  (safe_get doc ["analyzeResult", "documents"]).getD (.arr [])

/-- Source `documents[0].get("fields") or {}` for a first document that is a
dict with entries `kvs`. -/
def fields_value (kvs : List (String × Json)) : Json :=
  match lookupObj kvs "fields" with
  | some v => if truthy v then v else .obj []
  | none => .obj []

/-- The body of the export loop for one blob, after the `.json` name filter:
parse the blob (a `none` content stands for bytes `json.loads` rejects),
skip the file when `documents` is falsy, and otherwise evaluate
`documents[0].get("fields")`, which raises when `documents` is a truthy
non-list or its first element is not a dict.  `ok none` is a `continue`,
`ok (some row)` appends a row. -/
def process_result_blob (content : Option Json) :
    Except PyErr (Option (List Json)) :=
  match content with
  | none => .error .jsonDecodeError
  | some doc =>
    let documents := docs_value doc
    if truthy documents then
      match documents with
      | .arr [] => .error .indexError
      | .arr (d0 :: _) =>
        match d0 with
        | .obj kvs => .ok (some (invoice_row (fields_value kvs)))
        | .null => .error .typeError
        | .bool _ => .error .typeError
        | .num _ => .error .typeError
        | .str _ => .error .attributeError
        | .arr _ => .error .attributeError
      | .obj _ => .error .keyError
      | .str _ => .error .attributeError
      | .num _ => .error .typeError
      | .bool _ => .error .typeError
      | .null => .error .typeError
    else
      .ok none

/-- The accumulation loop of the export: every listed blob, filtered to
`.json` names, in order.  A blob is `(name, content)`; `content = none`
stands for bytes that `json.loads` rejects. -/
def collect_rows (blobs : List (String × Option Json)) :
    Except PyErr (List (List Json)) :=
  match blobs with
  | [] => .ok []
  | (name, content) :: rest =>
    if ends_with_json name then
      match process_result_blob content with
      | .error e => .error e
      | .ok none => collect_rows rest
      | .ok (some row) =>
        match collect_rows rest with
        | .error e => .error e
        | .ok rows => .ok (row :: rows)
    else
      collect_rows rest

/-- Source `export_invoices_to_excel`: check the connection string
(`if not CONN_STR: raise HTTPException(500, ...)`), run the accumulation
loop over the listed blobs, raise 404 when no rows accumulated, and
otherwise render the workbook: the header row followed by the data rows. -/
def export_invoices_to_excel (connStr : Option String)
    (blobs : List (String × Option Json)) :
    Except ExportErr (List String × List (List Json)) :=
  match connStr with
  | none => .error (.http 500 "AZURE_STORAGE_CONNECTION_STRING not set")
  | some cs =>
    if cs = "" then .error (.http 500 "AZURE_STORAGE_CONNECTION_STRING not set")
    else
      match collect_rows blobs with
      | .error e => .error (.py e)
      | .ok rows =>
        if rows.isEmpty then
          .error (.http 404 "No invoice JSON files found in result container")
        else
          .ok (xlsx_headers, rows)

/-- Characters allowed in a URL scheme after the first letter
(`scheme_chars` of `urllib.parse`). -/
def schemeChar (c : Char) : Bool :=
  c.isAlpha || c.isDigit || c = '+' || c = '-' || c = '.'

/-- Split a list at the first occurrence of `ch`: the part before it and the
part after it, or `none` when `ch` does not occur. -/
def breakAtChar (ch : Char) : List Char → Option (List Char × List Char)
  | [] => none
  | c :: cs =>
    if c = ch then some ([], cs)
    else
      match breakAtChar ch cs with
      | some p => some (c :: p.1, p.2)
      | none => none

/-- The tab/CR/LF removal `urlsplit` performs on the whole URL before
parsing (`_UNSAFE_URL_BYTES_TO_REMOVE`). -/
def removeTabCrLf (l : List Char) : List Char :=
  l.filter (fun c => (c != '\t') && (c != '\r') && (c != '\n'))

/-- The scheme step of `urllib.parse.urlsplit`: when the text before the
first `:` is a well-formed scheme (nonempty, letter first, scheme
characters throughout), return it lowercased together with the rest after
the colon; otherwise the scheme is empty and the URL is left whole. -/
def splitScheme (url : List Char) : List Char × List Char :=
  match breakAtChar ':' url with
  | some p =>
    match p.1 with
    | [] => ([], url)
    | c0 :: rest =>
      if c0.isAlpha && (c0 :: rest).all schemeChar then
        ((c0 :: rest).map Char.toLower, p.2)
      else ([], url)
  | none => ([], url)

/-- Characters ending the network-location part (`_splitnetloc`). -/
def netlocDelim (c : Char) : Bool :=
  c = '/' || c = '?' || c = '#'

/-- Split a list at the first character satisfying `p`, keeping that
character with the tail. -/
def spanUntil (p : Char → Bool) : List Char → List Char × List Char
  | [] => ([], [])
  | c :: cs =>
    if p c then ([], c :: cs)
    else
      let r := spanUntil p cs
      (c :: r.1, r.2)

/-- The netloc step of `urlsplit`: after a leading `//`, the netloc runs to
the first `/`, `?` or `#`.  A netloc with unbalanced square brackets makes
`urlsplit` raise `ValueError` ("Invalid IPv6 URL"), modelled as `none`. -/
def splitNetloc : List Char → Option (List Char × List Char)
  | '/' :: '/' :: rest =>
    let r := spanUntil netlocDelim rest
    if (r.1.elem '[') != (r.1.elem ']') then none else some (r.1, r.2)
  | l => some ([], l)

/-- Keep the part of the list before the first occurrence of `ch` (the
fragment and query splits of `urlsplit`). -/
def dropAfterChar (ch : Char) (l : List Char) : List Char :=
  match breakAtChar ch l with
  | some p => p.1
  | none => l

/-- The schemes for which `urlparse` splits `;params` off the last path
segment (`urllib.parse.uses_params`). -/
def usesParams : List (List Char) :=
  ["", "ftp", "hdl", "prospero", "http", "imap", "https", "shttp", "rtsp",
   "rtspu", "sip", "sips", "mms", "sftp", "tel"].map String.toList

/-- The part of a list after its last `/` (empty when it ends in `/`). -/
def afterLastSlash (l : List Char) : List Char :=
  (l.reverse.takeWhile (fun c => c != '/')).reverse

/-- The part of a list up to and including its last `/`. -/
def beforeLastSlashIncl (l : List Char) : List Char :=
  (l.reverse.dropWhile (fun c => c != '/')).reverse

/-- `urllib.parse._splitparams` on the path component, keeping the path:
when the path contains a `/`, the first `;` at or after the last `/` (that
is, within the last segment) starts the params; otherwise the first `;`
anywhere does.  Without such a `;` the path is unchanged. -/
def dropParams (path : List Char) : List Char :=
  if path.elem '/' then
    match breakAtChar ';' (afterLastSlash path) with
    | some p => beforeLastSlashIncl path ++ p.1
    | none => path
  else
    match breakAtChar ';' path with
    | some p => p.1
    | none => path

/-- `urllib.parse.urlsplit(url)`, reduced to the lowercased scheme and the
path: split the scheme, split off the netloc (checking its brackets — the
`ValueError` case is `none`), then drop the fragment and the query. -/
def urlsplitPath (url : List Char) : Option (List Char × List Char) :=
  match splitNetloc (splitScheme url).2 with
  | none => none
  | some nr =>
    some ((splitScheme url).1, dropAfterChar '?' (dropAfterChar '#' nr.2))

/-- `urllib.parse.urlparse(url).path`, or `none` when `urlsplit` raises:
remove tab/CR/LF, run `urlsplit`, and for a scheme in `uses_params` with a
`;` in the path, split the params off the last path segment. -/
def urlparsePath (url : List Char) : Option (List Char) :=
  match urlsplitPath (removeTabCrLf url) with
  | none => none
  | some sp =>
    if usesParams.contains sp.1 && sp.2.elem ';' then some (dropParams sp.2)
    else some sp.2

/-- Python `path.rstrip("/")`. -/
def rstripSlashes (l : List Char) : List Char :=
  (l.reverse.dropWhile (fun c => c = '/')).reverse

/-- Python `str.split(sep)` for a one-character separator: always a nonempty
list of parts. -/
def splitOnChar (ch : Char) : List Char → List (List Char)
  | [] => [[]]
  | c :: cs =>
    if c = ch then [] :: splitOnChar ch cs
    else
      match splitOnChar ch cs with
      | [] => [[c]]
      | y :: ys => (c :: y) :: ys

/-- Source `extract_result_id(operation_location)`:
`urlparse(operation_location).path.rstrip("/").split("/")[-1]`, with the
surrounding `try/except` turning any `urlparse` error into `""`. -/
def extract_result_id (operation_location : String) : String :=
  match urlparsePath operation_location.toList with
  | none => ""
  | some path => ((splitOnChar '/' (rstripSlashes path)).getLastD []).asString

/-- Source `get_container_url(account, container)`. -/
def get_container_url (account container : String) : String :=
  "https://" ++ account ++ ".blob.core.windows.net/" ++ container

/-- The JSON object returned by `start_invoice_batch` on the success path
(source step 11), keyed fields modelled as a structure. -/
structure BatchStartResponse where
  ok : Bool
  operationLocation : String
  resultId : String
  sourceContainer : String
  resultContainer : String
deriving DecidableEq

/-- The success branch of `start_invoice_batch`: after a 2xx reply the
response is built with `ok = True` and the result id recovered from the
`operation-location` header, whatever that header held. -/
def batch_start_success (operation_location sourceContainer resultContainer :
    String) : BatchStartResponse :=
  { ok := true
    operationLocation := operation_location
    resultId := extract_result_id operation_location
    sourceContainer := sourceContainer
    resultContainer := resultContainer }

/-- The character class `[A-Za-z0-9._-]` of the upload sanitizer. -/
def slugChar (c : Char) : Bool :=
  c.isAlpha || c.isDigit || c = '.' || c = '_' || c = '-'

/-- Python `encode("ascii", "ignore").decode("ascii")`: drop every
non-ASCII character. -/
def asciiIgnore (l : List Char) : List Char :=
  l.filter (fun c => c.toNat < 128)

/-- `re.sub(r"[^A-Za-z0-9._-]+", "_", name)`: each maximal run of characters
outside the class becomes a single underscore.  `inBad` records whether the
previous character belonged to such a run. -/
def subBadRuns : List Char → Bool → List Char
  | [], _ => []
  | c :: cs, inBad =>
    if slugChar c then c :: subBadRuns cs false
    else if inBad then subBadRuns cs true
    else '_' :: subBadRuns cs true

/-- `re.sub(r"_+", "_", name)`: collapse runs of underscores. -/
def collapseUnderscores : List Char → Bool → List Char
  | [], _ => []
  | c :: cs, prevU =>
    if c = '_' then
      if prevU then collapseUnderscores cs true
      else '_' :: collapseUnderscores cs true
    else c :: collapseUnderscores cs false

/-- The characters `.strip("._-")` removes from both ends. -/
def stripSetChar (c : Char) : Bool :=
  c = '.' || c = '_' || c = '-'

/-- Python `name.strip("._-")`. -/
def stripEnds (l : List Char) : List Char :=
  ((l.dropWhile stripSetChar).reverse.dropWhile stripSetChar).reverse

/-- Source `slugify_filename(name)`.  The NFKD normalization step is an
opaque Unicode table lookup and is taken as a parameter `nfkd`, so the
theorems below hold for the real table; the `ascii`/`ignore` encode that
follows it is modelled exactly. -/
def slugify_filename (nfkd : List Char → List Char) (name : List Char) :
    List Char :=
  let n1 := (splitOnChar '\\' name).getLastD []
  let n2 := (splitOnChar '/' n1).getLastD []
  let n3 := asciiIgnore (nfkd n2)
  let n4 := subBadRuns n3 false
  let n5 := collapseUnderscores n4 false
  let n6 := stripEnds n5
  if n6.isEmpty then "file".toList else n6

/-- Source `upload_invoice`: `blob_name = f"{ts}_{safe_name}"` where
`ts = datetime.utcnow().strftime("%Y%m%d_%H%M%S")`. -/
def upload_blob_name (ts : List Char) (nfkd : List Char → List Char)
    (file_name : List Char) : List Char :=
  ts ++ '_' :: slugify_filename nfkd file_name

/-- Characters of the partition-key pattern: letters, digits, underscore,
hyphen and slash. -/
def pfxChar (c : Char) : Bool :=
  c.isAlpha || c.isDigit || c = '_' || c = '-' || c = '/'

/-- Full match of the partition-key pattern (one or more characters, each a
letter, digit, underscore, hyphen or slash): nonempty and every character
in the class. -/
def matchesPfxPattern (p : String) : Bool :=
  !p.toList.isEmpty && p.toList.all pfxChar

/-- Modelled from the spec: "If no prefix is supplied, generates
`{UTC-date:YYYY-MM-DD}/run-{random-unique-id}`" — the generated partition
key of an unprefixed batch submission.  (The revision of
`start_invoice_batch` with partition-key support is not under `src/`.) -/
def generatedPfx (utcDate uid : String) : String :=
  utcDate ++ "/run-" ++ uid

/-- The outbound `analyzeBatch` request body (spec: source container URL,
optional partition key, result container URL, overwrite flag). -/
structure AnalyzeBatchBody where
  containerUrl : String
  sourcePfx : Option String
  resultContainerUrl : String
  overwriteExisting : Bool
deriving DecidableEq

/-- Failures of batch submission that occur before the outbound request. -/
inductive BatchStartErr where
  | missingConfig
  | invalidPfx
deriving DecidableEq

/-- Modelled from the spec: "If a caller-supplied prefix is given, it must
the pattern (letters, digits, underscore, hyphen, slash; one or more
characters); violation fails the call (input-validation error)
before any network call is made" and "If no prefix is supplied, generates
`{UTC-date:YYYY-MM-DD}/run-{random-unique-id}`".  An `Except.error` is a
rejection before the outbound request exists; an `Except.ok` body is the
request that is then POSTed.  (The revision of `start_invoice_batch` with
this behaviour is not under `src/`; `get_container_url` and the rest of the
body come from the source's step 7.) -/
def build_batch_request (account source result : String)
    (callerPfx : Option String) (utcDate uid : String) :
    Except BatchStartErr AnalyzeBatchBody :=
  match callerPfx with
  | some p =>
    if matchesPfxPattern p then
      .ok { containerUrl := get_container_url account source
            sourcePfx := some p
            resultContainerUrl := get_container_url account result
            overwriteExisting := true }
    else .error .invalidPfx
  | none =>
    .ok { containerUrl := get_container_url account source
          sourcePfx := some (generatedPfx utcDate uid)
          resultContainerUrl := get_container_url account result
          overwriteExisting := true }

/-- Insert a string into a ≤-sorted list of strings, keeping it sorted.
The comparison is written on the character lists (the same order as
`String` ≤, by `String.le_iff_toList_le`) so that it evaluates. -/
def insertSorted (s : String) : List String → List String
  | [] => [s]
  | x :: xs => if s.toList ≤ x.toList then s :: x :: xs else x :: insertSorted s xs

/-- Insertion sort over strings (Python `sorted` on a set of names). -/
def sortStrings (l : List String) : List String :=
  l.foldr insertSorted []

/-- Modelled from the spec: dynamic-schema export, "first pass over all
documents in the batch collects the set of distinct field names present in
any document; column order is that set's natural lexical sort".  (The
dynamic-mode export revision is not under `src/`.) -/
def dynamic_headers (docs : List (List (String × Json))) : List String :=
  sortStrings ((docs.map (fun d => d.map Prod.fst)).flatten.dedup)

/-- Modelled from the spec: the dynamic-mode cell, "the extracted scalar
value (content, string, number, or date value, in that precedence) for each
discovered column, or an empty cell if the document lacks that field". -/
def dynamic_cell (doc : List (String × Json)) (col : String) : Json :=
  match lookupObj doc col with
  | none => .str ""
  | some f =>
    match f with
    | .obj kvs =>
      match lookupObj kvs "content" with
      | some v => v
      | none =>
        match lookupObj kvs "valueString" with
        | some v => v
        | none =>
          match lookupObj kvs "valueNumber" with
          | some v => v
          | none =>
            match lookupObj kvs "valueDate" with
            | some v => v
            | none => .str ""
    | _ => .str ""

/-- Modelled from the spec: the dynamic-mode row of one document over the
discovered column list. -/
def dynamic_row (cols : List String) (doc : List (String × Json)) :
    List Json :=
  cols.map (dynamic_cell doc)

/-- A parsed result file the export loop is guaranteed not to raise on: its
`documents` value is either falsy (the file is skipped) or a list whose
first element is a dict (a row is projected). -/
def gracefulDoc (doc : Json) : Bool :=
  let documents := docs_value doc
  if truthy documents then
    match documents with
    | .arr (.obj _ :: _) => true
    | _ => false
  else true

/-- A listed blob the export loop is guaranteed not to raise on: either its
name is not `.json`-suffixed (it is filtered out), or its content parses as
JSON into a graceful document. -/
def gracefulBlob (b : String × Option Json) : Bool :=
  !ends_with_json b.1 ||
    (match b.2 with
     | some doc => gracefulDoc doc
     | none => false)

/-- Every `.json`-named blob parses and its `documents` value is falsy, so
the whole listing contributes zero rows without raising. -/
def all_skippable (blobs : List (String × Option Json)) : Bool :=
  blobs.all (fun b =>
    !ends_with_json b.1 ||
      (match b.2 with
       | some doc => !truthy (docs_value doc)
       | none => false))

/-- Characters that may appear in the final path segment of an
operation-location URL without affecting how `urlparse` treats it: no
segment or query/fragment delimiters, no `;` (which starts the params of
the last segment), and none of the tab/CR/LF characters `urlsplit`
removes. -/
def urlSegChar (c : Char) : Bool :=
  (c != '/') && (c != '?') && (c != '#') && (c != ';') &&
    (c != '\t') && (c != '\r') && (c != '\n')

end Invoice
namespace Invoice

/-- Claim C4: in fixed-schema export every row puts each declared field's
value immediately before its confidence, with currency-code cells for the
three monetary fields, in the documented column order; a document with
`InvoiceTotal.valueCurrency = {amount: 100, currencyCode: "USD"}` and
confidence 0.9 yields the cells `100, USD, 0.9` in the `InvoiceTotal`
columns, and a document missing `InvoiceTotal` yields empty cells there. -/
theorem c4_fixed_schema_row_layout :
    xlsx_headers =
      [ "InvoiceId", "InvoiceId_confidence",
        "VendorAddressRecipient", "VendorAddressRecipient_confidence",
        "VendorTaxId", "VendorTaxId_confidence",
        "CustomerAddressRecipient", "CustomerAddressRecipient_confidence",
        "CustomerTaxId", "CustomerTaxId_confidence",
        "InvoiceDate", "InvoiceDate_confidence",
        "DueDate", "DueDate_confidence",
        "InvoiceTotal_amount", "InvoiceTotal_currencyCode",
        "InvoiceTotal_confidence",
        "SubTotal_amount", "SubTotal_currencyCode", "SubTotal_confidence",
        "TotalTax_amount", "TotalTax_currencyCode", "TotalTax_confidence" ] ∧
    (∀ fields : Json, (invoice_row fields).length = xlsx_headers.length) ∧
    q09 = (0.9 : ℚ) ∧
    ((invoice_row (.obj [("InvoiceTotal", .obj
        [("valueCurrency", .obj [("amount", .num 100),
                                 ("currencyCode", .str "USD")]),
         ("confidence", .num q09)])])).drop 14).take 3
      = [.num 100, .str "USD", .num q09] ∧
    ((invoice_row (.obj [])).drop 14).take 3 = [.str "", .str "", .str ""] :=
  ⟨rfl, fun _ => rfl, q09_val, rfl, rfl⟩

/-- Claim C10: a field whose confidence is exactly 0 is rendered with an
empty confidence cell, the same rendering as a field with no usable
confidence at all, because the projector's `get_confidence(f) or ""`
coerces the falsy 0 to the empty string. -/
theorem c10_zero_confidence_cell :
    ∀ f g : List (String × Json),
      lookupObj f "confidence" = some (.num 0) →
      lookupObj g "confidence" = none →
      conf_cell f = .str "" ∧ conf_cell f = conf_cell g := by
  intro f g hf hg
  simp [conf_cell, get_confidence, hf, hg, orEmptyStr, isNumLike, truthy]

/-- Witness for C10 at a concrete field with confidence 0 and a concrete
field without a confidence entry. -/
theorem c10_witness :
    conf_cell [("confidence", Json.num 0)] = .str "" ∧
    conf_cell [("confidence", Json.num 0)] =
      conf_cell [("valueString", Json.str "x")] :=
  c10_zero_confidence_cell _ _ rfl rfl

/-- Claim C6 is false as stated: `get_value_string` applied to a field whose
`valueString` slot holds a truthy value of the wrong type returns that value
unchanged instead of the defined default (the empty string). -/
theorem c6_counterexample :
    get_value_string [("valueString", Json.num 123)] = Json.num 123 ∧
    ((Json.num 123 = Json.str "") = False) :=
  ⟨rfl, eq_false (fun h => Json.noConfusion h)⟩

/-- Claim C6 as amended: the accessors never raise on the inputs the program
gives them, and a missing key or a wrong type at any dict-traversal step
yields the defined default; `get_field` and `get_confidence` also coerce a
wrongly-typed final value to the default, while the four value accessors
only coerce falsy final values (see the counterexample for truthy ones). -/
theorem c6_accessor_defaults :
    (∀ (j : Json) (nm : String), isObj j = false → get_field j nm = []) ∧
    (∀ (kvs : List (String × Json)) (nm : String),
      lookupObj kvs nm = none → get_field (.obj kvs) nm = []) ∧
    (∀ (kvs : List (String × Json)) (nm : String) (v : Json),
      lookupObj kvs nm = some v → isObj v = false →
      get_field (.obj kvs) nm = []) ∧
    (∀ field, lookupObj field "valueString" = none →
      get_value_string field = .str "") ∧
    (∀ field, lookupObj field "valueDate" = none →
      get_value_date field = .str "") ∧
    (∀ field v, lookupObj field "valueCurrency" = some v → isObj v = false →
      get_value_currency_amount field = .str "" ∧
      get_value_currency_code field = .str "") ∧
    (∀ field, lookupObj field "valueCurrency" = none →
      get_value_currency_amount field = .str "" ∧
      get_value_currency_code field = .str "") ∧
    (∀ field c, lookupObj field "confidence" = some c → isNumLike c = false →
      get_confidence field = none) ∧
    (∀ field, lookupObj field "confidence" = none →
      get_confidence field = none) := by
  refine ⟨?_, ?_, ?_, ?_, ?_, ?_, ?_, ?_, ?_⟩
  · intro j nm h; cases j <;> simp_all [get_field, isObj]
  · intro kvs nm h; simp [get_field, h]
  · intro kvs nm v h hv; cases v <;> simp_all [get_field, isObj]
  · intro field h; simp [get_value_string, h, orEmptyStr]
  · intro field h; simp [get_value_date, h, orEmptyStr]
  · intro field v h hv
    cases v <;> simp_all [get_value_currency_amount, get_value_currency_code,
      safe_get, orEmptyStr, isObj]
  · intro field h
    simp [get_value_currency_amount, get_value_currency_code, safe_get, h,
      orEmptyStr]
  · intro field c h hc; simp [get_confidence, h, hc]
  · intro field h; simp [get_confidence, h]

/-- Witness for the amended C6 at concrete drifted fields. -/
theorem c6_witness :
    get_field (.str "drift") "InvoiceId" = [] ∧
    get_field (.obj [("Other", .null)]) "InvoiceId" = [] ∧
    get_field (.obj [("InvoiceId", .num 7)]) "InvoiceId" = [] ∧
    get_value_string [("content", .str "x")] = .str "" ∧
    get_value_date [] = .str "" ∧
    (get_value_currency_amount [("valueCurrency", .str "USD")] = .str "" ∧
      get_value_currency_code [("valueCurrency", .str "USD")] = .str "") ∧
    (get_value_currency_amount [] = .str "" ∧
      get_value_currency_code [] = .str "") ∧
    get_confidence [("confidence", .str "high")] = none ∧
    get_confidence [] = none :=
  ⟨c6_accessor_defaults.1 _ "InvoiceId" rfl,
   c6_accessor_defaults.2.1 _ "InvoiceId" rfl,
   c6_accessor_defaults.2.2.1 _ "InvoiceId" _ rfl rfl,
   c6_accessor_defaults.2.2.2.1 _ rfl,
   c6_accessor_defaults.2.2.2.2.1 _ rfl,
   c6_accessor_defaults.2.2.2.2.2.1 _ _ rfl rfl,
   c6_accessor_defaults.2.2.2.2.2.2.1 _ rfl,
   c6_accessor_defaults.2.2.2.2.2.2.2.1 _ _ rfl rfl,
   c6_accessor_defaults.2.2.2.2.2.2.2.2 _ rfl⟩

/-- Claim C1 (from the spec model of the partition-key-supporting revision):
a caller-supplied partition key matching the documented pattern lets the
submission proceed to the outbound request, and any other nonempty key
fails with the input-validation error before a request body exists. -/
theorem c1_pfx_validated_before_send :
    ∀ account source result p utcDate uid : String,
      (matchesPfxPattern p = true →
        build_batch_request account source result (some p) utcDate uid =
          .ok { containerUrl := get_container_url account source
                sourcePfx := some p
                resultContainerUrl := get_container_url account result
                overwriteExisting := true }) ∧
      (p ≠ "" → matchesPfxPattern p = false →
        build_batch_request account source result (some p) utcDate uid =
          .error .invalidPfx) := by
  intro a s r p d u
  constructor
  · intro h; simp [build_batch_request, h]
  · intro _ h; simp [build_batch_request, h]

/-- Witness for C1: a matching key is accepted, a nonempty non-matching key
is rejected. -/
theorem c1_witness :
    matchesPfxPattern "2026-10-12/run-a1b2" = true ∧
    build_batch_request "acct" "invoicebatch" "invoicebatch-result"
      (some "2026-10-12/run-a1b2") "2026-10-12" "u" =
      .ok { containerUrl := get_container_url "acct" "invoicebatch"
            sourcePfx := some "2026-10-12/run-a1b2"
            resultContainerUrl :=
              get_container_url "acct" "invoicebatch-result"
            overwriteExisting := true } ∧
    matchesPfxPattern "bad key!" = false ∧
    build_batch_request "acct" "invoicebatch" "invoicebatch-result"
      (some "bad key!") "2026-10-12" "u" = .error .invalidPfx :=
  ⟨by decide,
   (c1_pfx_validated_before_send "acct" "invoicebatch" "invoicebatch-result"
      "2026-10-12/run-a1b2" "2026-10-12" "u").1 (by decide),
   by decide,
   (c1_pfx_validated_before_send "acct" "invoicebatch" "invoicebatch-result"
      "bad key!" "2026-10-12" "u").2 (by decide) (by decide)⟩

lemma takeWhile_append_no_slash (d rest : List Char)
    (h : d.all (fun c => c != '/') = true) :
    (d ++ '/' :: rest).takeWhile (fun c => c != '/') = d := by
  induction d with
  | nil => simp
  | cons x xs ih =>
    rw [List.all_cons, Bool.and_eq_true] at h
    rw [List.cons_append, List.takeWhile_cons, h.1]
    simp [ih h.2]

/-- Claim C7 (from the spec model of the partition-key-supporting revision):
an unprefixed submission builds the outbound request with the generated
`{UTC-date}/run-{random-id}` partition key, and, as long as the date and id
parts contain no slash (their formats never do), two generated keys
coincide only when both the dates and the random ids coincide — so distinct
random ids guarantee distinct keys for concurrent submissions. -/
theorem c7_generated_pfx_unique :
    (∀ account source result utcDate uid : String,
      build_batch_request account source result none utcDate uid =
        .ok { containerUrl := get_container_url account source
              sourcePfx := some (generatedPfx utcDate uid)
              resultContainerUrl := get_container_url account result
              overwriteExisting := true }) ∧
    (∀ d1 d2 u1 u2 : String,
      d1.toList.all (fun c => c != '/') = true →
      d2.toList.all (fun c => c != '/') = true →
      u1.toList.all (fun c => c != '/') = true →
      u2.toList.all (fun c => c != '/') = true →
      generatedPfx d1 u1 = generatedPfx d2 u2 → d1 = d2 ∧ u1 = u2) := by
  constructor
  · intro a s r d u; rfl
  · intro d1 d2 u1 u2 h1 h2 _ _ heq
    have hl : d1.toList ++ '/' :: ("run-".toList ++ u1.toList) =
        d2.toList ++ '/' :: ("run-".toList ++ u2.toList) := by
      have h := congrArg String.toList heq
      have e1 : (generatedPfx d1 u1).toList =
          d1.toList ++ '/' :: ("run-".toList ++ u1.toList) := by
        rw [generatedPfx,
          show (d1 ++ "/run-" ++ u1).toList =
            d1.toList ++ "/run-".toList ++ u1.toList from rfl,
          List.append_assoc]
        rfl
      have e2 : (generatedPfx d2 u2).toList =
          d2.toList ++ '/' :: ("run-".toList ++ u2.toList) := by
        rw [generatedPfx,
          show (d2 ++ "/run-" ++ u2).toList =
            d2.toList ++ "/run-".toList ++ u2.toList from rfl,
          List.append_assoc]
        rfl
      rw [e1, e2] at h
      exact h
    have hd : d1.toList = d2.toList := by
      have t1 := takeWhile_append_no_slash d1.toList
        ("run-".toList ++ u1.toList) h1
      have t2 := takeWhile_append_no_slash d2.toList
        ("run-".toList ++ u2.toList) h2
      rw [← t1, ← t2, hl]
    refine ⟨String.toList_inj.mp hd, ?_⟩
    rw [hd] at hl
    have h3 := List.append_cancel_left hl
    have h4 : "run-".toList ++ u1.toList = "run-".toList ++ u2.toList := by
      injection h3
    exact String.toList_inj.mp (List.append_cancel_left h4)

/-- Witness for C7 at concrete dates and random ids. -/
theorem c7_witness :
    build_batch_request "acct" "invoicebatch" "invoicebatch-result" none
      "2026-10-12" "f3a9" =
      .ok { containerUrl := get_container_url "acct" "invoicebatch"
            sourcePfx := some (generatedPfx "2026-10-12" "f3a9")
            resultContainerUrl :=
              get_container_url "acct" "invoicebatch-result"
            overwriteExisting := true } ∧
    ("2026-10-12" = "2026-10-12" ∧ "f3a9" = "f3a9") ∧
    ((generatedPfx "2026-10-12" "f3a9" = generatedPfx "2026-10-12" "0c77")
      = False) :=
  ⟨c7_generated_pfx_unique.1 "acct" "invoicebatch" "invoicebatch-result"
      "2026-10-12" "f3a9",
   c7_generated_pfx_unique.2 "2026-10-12" "2026-10-12" "f3a9" "f3a9"
      (by decide) (by decide) (by decide) (by decide) rfl,
   eq_false (by decide)⟩

lemma process_skip (doc : Json) (h : truthy (docs_value doc) = false) :
    process_result_blob (some doc) = .ok none := by
  rw [process_result_blob]
  simp [h]

lemma process_graceful (doc : Json) (h : gracefulDoc doc = true) :
    ∃ r, process_result_blob (some doc) = .ok r := by
  rw [gracefulDoc] at h
  by_cases ht : truthy (docs_value doc) = true
  · rw [if_pos ht] at h
    rw [process_result_blob]
    rcases hd : docs_value doc with _ | b | q | s | xs | kvs
    · rw [hd] at h; exact absurd h (by simp)
    · rw [hd] at h; exact absurd h (by simp)
    · rw [hd] at h; exact absurd h (by simp)
    · rw [hd] at h; exact absurd h (by simp)
    · rcases xs with _ | ⟨d0, rest⟩
      · rw [hd] at ht; exact absurd ht (by simp [truthy])
      · rcases d0 with _ | b | q | s | ys | f
        · rw [hd] at h; exact absurd h (by simp)
        · rw [hd] at h; exact absurd h (by simp)
        · rw [hd] at h; exact absurd h (by simp)
        · rw [hd] at h; exact absurd h (by simp)
        · rw [hd] at h; exact absurd h (by simp)
        · exact ⟨some (invoice_row (fields_value f)), by simp [hd, truthy]⟩
    · rw [hd] at h; exact absurd h (by simp)
  · exact ⟨none, process_skip doc (by simpa using ht)⟩

lemma collect_graceful (blobs : List (String × Option Json))
    (h : blobs.all gracefulBlob = true) :
    ∃ rows, collect_rows blobs = .ok rows := by
  induction blobs with
  | nil => exact ⟨[], rfl⟩
  | cons b rest ih =>
    rw [List.all_cons, Bool.and_eq_true] at h
    obtain ⟨rows, hr⟩ := ih h.2
    obtain ⟨name, content⟩ := b
    have h1 := h.1
    rw [gracefulBlob] at h1
    rw [collect_rows]
    by_cases hj : ends_with_json name = true
    · rw [if_pos hj]
      rw [hj] at h1
      simp only [Bool.not_true, Bool.false_or] at h1
      cases content with
      | none => exact absurd h1 (by simp)
      | some doc =>
        obtain ⟨r, hp⟩ := process_graceful doc h1
        rw [hp]
        cases r with
        | none => exact ⟨rows, hr⟩
        | some row => rw [hr]; exact ⟨row :: rows, rfl⟩
    · rw [if_neg hj]; exact ⟨rows, hr⟩

/-- Claim C2 as amended: for blob listings whose `.json`-named entries all
parse as JSON and have a graceful shape (a falsy `documents` value, or a
list of documents headed by a dict), the export completes — each such file
contributes a row of defaults or is skipped — ending in a rendered workbook
or the deliberate HTTP error, never in an uncaught exception.  (As stated
the claim is false: a `.json` blob whose bytes do not parse as JSON aborts
the whole export, see the counterexample.) -/
theorem c2_parsed_files_degrade_gracefully :
    ∀ (connStr : Option String) (blobs : List (String × Option Json)),
      blobs.all gracefulBlob = true →
      (∃ out, export_invoices_to_excel connStr blobs = .ok out) ∨
      (∃ st d, export_invoices_to_excel connStr blobs = .error (.http st d)) := by
  intro conn blobs h
  obtain ⟨rows, hr⟩ := collect_graceful blobs h
  cases conn with
  | none => exact .inr ⟨500, _, rfl⟩
  | some cs =>
    by_cases hcs : cs = ""
    · exact .inr ⟨500, _, by rw [export_invoices_to_excel, if_pos hcs]⟩
    · rw [export_invoices_to_excel, if_neg hcs, hr]
      cases rows with
      | nil => exact .inr ⟨404, _, rfl⟩
      | cons r rs => exact .inl ⟨(xlsx_headers, r :: rs), rfl⟩

/-- Claim C2 is false as stated: one result file whose bytes `json.loads`
rejects aborts the whole export with the uncaught decode error, even though
a well-formed file next to it would have produced a row — the very listing
without the bad file exports successfully. -/
theorem c2_counterexample :
    export_invoices_to_excel (some "conn")
      [("bad.json", none),
       ("good.json", some (.obj [("analyzeResult", .obj [("documents",
          .arr [.obj [("fields", .obj [("InvoiceId", .obj
            [("valueString", .str "A1"), ("confidence", .num 1)])])]])])]))]
      = .error (.py .jsonDecodeError) ∧
    export_invoices_to_excel (some "conn")
      [("good.json", some (.obj [("analyzeResult", .obj [("documents",
          .arr [.obj [("fields", .obj [("InvoiceId", .obj
            [("valueString", .str "A1"), ("confidence", .num 1)])])]])])]))]
      = .ok (xlsx_headers,
          [invoice_row (.obj [("InvoiceId", .obj
            [("valueString", .str "A1"), ("confidence", .num 1)])])]) :=
  ⟨rfl, rfl⟩

/-- Witness for the amended C2: a listing with a schema-drifted parsed file,
an empty-result file and a non-JSON blob is graceful and exports without an
uncaught exception. -/
theorem c2_witness :
    ([("drift.json", some (.obj [("analyzeResult", .obj [("documents",
        .arr [.obj [("fields", .num 5)]])])])),
      ("empty.json", some (.obj [])),
      ("notes.txt", none)].all gracefulBlob = true) ∧
    ((∃ out, export_invoices_to_excel (some "conn")
        [("drift.json", some (.obj [("analyzeResult", .obj [("documents",
            .arr [.obj [("fields", .num 5)]])])])),
          ("empty.json", some (.obj [])),
          ("notes.txt", none)] = .ok out) ∨
     (∃ st d, export_invoices_to_excel (some "conn")
        [("drift.json", some (.obj [("analyzeResult", .obj [("documents",
            .arr [.obj [("fields", .num 5)]])])])),
          ("empty.json", some (.obj [])),
          ("notes.txt", none)] = .error (.http st d))) :=
  ⟨by decide,
   c2_parsed_files_degrade_gracefully (some "conn")
     [("drift.json", some (.obj [("analyzeResult", .obj [("documents",
         .arr [.obj [("fields", .num 5)]])])])),
       ("empty.json", some (.obj [])),
       ("notes.txt", none)] (by decide)⟩

lemma collect_skippable (blobs : List (String × Option Json))
    (h : all_skippable blobs = true) :
    collect_rows blobs = .ok [] := by
  induction blobs with
  | nil => rfl
  | cons b rest ih =>
    rw [all_skippable, List.all_cons, Bool.and_eq_true] at h
    have hr := ih h.2
    obtain ⟨name, content⟩ := b
    have h1 := h.1
    rw [collect_rows]
    by_cases hj : ends_with_json name = true
    · rw [if_pos hj]
      rw [hj] at h1
      simp only [Bool.not_true, Bool.false_or] at h1
      cases content with
      | none => exact absurd h1 (by simp)
      | some doc =>
        rw [process_skip doc (by simpa using h1)]
        exact hr
    · rw [if_neg hj]; exact hr

/-- Claim C8 as amended: when every `.json`-named blob parses as JSON and
none yields a truthy `documents` value, the export fails with the 404
not-found error; and a successful export never carries an empty row list
(no empty spreadsheet).  (As stated the claim is false: a `.json` blob that
does not parse aborts with the decode error instead of the 404, see the
counterexample.) -/
theorem c8_zero_rows_yield_404 :
    (∀ (cs : String) (blobs : List (String × Option Json)),
      cs ≠ "" → all_skippable blobs = true →
      export_invoices_to_excel (some cs) blobs =
        .error (.http 404 "No invoice JSON files found in result container")) ∧
    (∀ (connStr : Option String) (blobs : List (String × Option Json)) out,
      export_invoices_to_excel connStr blobs = .ok out →
      out.2.isEmpty = false) := by
  constructor
  · intro cs blobs hcs h
    rw [export_invoices_to_excel, if_neg hcs, collect_skippable blobs h]
    rfl
  · intro conn blobs out h
    cases conn with
    | none => exact absurd h (by simp [export_invoices_to_excel])
    | some cs =>
      rw [export_invoices_to_excel] at h
      by_cases hcs : cs = ""
      · rw [if_pos hcs] at h; exact absurd h (by simp)
      · rw [if_neg hcs] at h
        cases hc : collect_rows blobs with
        | error e => rw [hc] at h; exact absurd h (by simp)
        | ok rows =>
          rw [hc] at h
          cases rows with
          | nil => exact absurd h (by simp)
          | cons r rs =>
            simp at h
            rw [← h]
            simp

/-- Claim C8 is false as stated: an export run over a single `.json` blob
whose bytes do not parse accumulates zero rows yet fails with the uncaught
decode error, not the 404 not-found error. -/
theorem c8_counterexample :
    export_invoices_to_excel (some "conn") [("only.json", none)] =
      .error (.py .jsonDecodeError) ∧
    ((ExportErr.py PyErr.jsonDecodeError =
      ExportErr.http 404 "No invoice JSON files found in result container")
      = False) :=
  ⟨rfl, eq_false (by decide)⟩

/-- Witness for the amended C8: a parsed empty-result file plus a non-JSON
blob yield the 404, and a concrete successful export has a nonempty row
list. -/
theorem c8_witness :
    export_invoices_to_excel (some "conn")
      [("empty.json", some (.obj [("analyzeResult",
          .obj [("documents", .arr [])])])),
       ("readme.md", none)] =
      .error (.http 404 "No invoice JSON files found in result container") ∧
    ((xlsx_headers, [invoice_row (.obj [])]) :
        List String × List (List Json)).2.isEmpty = false :=
  ⟨c8_zero_rows_yield_404.1 "conn"
     [("empty.json", some (.obj [("analyzeResult",
         .obj [("documents", .arr [])])])),
      ("readme.md", none)] (by decide) (by decide),
   c8_zero_rows_yield_404.2 (some "conn")
     [("row.json", some (.obj [("analyzeResult",
         .obj [("documents", .arr [.obj []])])]))]
     (xlsx_headers, [invoice_row (.obj [])]) rfl⟩

lemma insertSorted_eq (s : String) (l : List String) :
    insertSorted s l = List.orderedInsert (· ≤ ·) s l := by
  induction l with
  | nil => rfl
  | cons x xs ih =>
    rw [insertSorted, List.orderedInsert]
    by_cases h : s ≤ x
    · rw [if_pos (String.le_iff_toList_le.mp h), if_pos h]
    · rw [if_neg (fun hc => h (String.le_iff_toList_le.mpr hc)), if_neg h, ih]

lemma sortStrings_eq (l : List String) :
    sortStrings l = List.insertionSort (· ≤ ·) l := by
  induction l with
  | nil => rfl
  | cons x xs ih =>
    show insertSorted x (sortStrings xs) =
      List.orderedInsert (· ≤ ·) x (List.insertionSort (· ≤ ·) xs)
    rw [ih, insertSorted_eq]

/-- Claim C5 (from the spec model of the dynamic-mode revision): the output
header is exactly the lexically sorted union of the field names present in
any document — on field sets {A,B} and {B,C} it is [A,B,C] — and a row has
an empty cell at every column whose field the document lacks. -/
theorem c5_dynamic_schema :
    (dynamic_headers
        [[("A", .obj [("content", .str "a1")]),
          ("B", .obj [("content", .str "b1")])],
         [("B", .obj [("content", .str "b2")]),
          ("C", .obj [("content", .str "c2")])]] = ["A", "B", "C"]) ∧
    (∀ docs, (dynamic_headers docs).Sorted (· ≤ ·)) ∧
    (∀ docs s, s ∈ dynamic_headers docs ↔
      ∃ d ∈ docs, s ∈ d.map Prod.fst) ∧
    (∀ doc col, lookupObj doc col = none → dynamic_cell doc col = .str "") ∧
    (dynamic_row ["A", "B", "C"]
        [("B", .obj [("content", .str "b2")]),
         ("C", .obj [("content", .str "c2")])]
      = [.str "", .str "b2", .str "c2"]) := by
  refine ⟨by decide, ?_, ?_, ?_, rfl⟩
  · intro docs
    rw [dynamic_headers, sortStrings_eq]
    exact List.sorted_insertionSort _ _
  · intro docs s
    rw [dynamic_headers, sortStrings_eq, List.mem_insertionSort,
      List.mem_dedup, List.mem_flatten]
    constructor
    · rintro ⟨l, hl, hs⟩
      obtain ⟨d, hd, rfl⟩ := List.mem_map.mp hl
      exact ⟨d, hd, hs⟩
    · rintro ⟨d, hd, hs⟩
      exact ⟨d.map Prod.fst, List.mem_map.mpr ⟨d, hd, rfl⟩, hs⟩
  · intro doc col h
    rw [dynamic_cell, h]

/-- Witness for C5 at a concrete document lacking a column. -/
theorem c5_witness :
    lookupObj [("B", Json.obj [("content", .str "b2")])] "A" = none ∧
    dynamic_cell [("B", Json.obj [("content", .str "b2")])] "A" = .str "" :=
  ⟨rfl, c5_dynamic_schema.2.2.2.1 _ "A" rfl⟩

lemma subBadRuns_all_slug (l : List Char) (b : Bool) :
    (subBadRuns l b).all slugChar = true := by
  induction l generalizing b with
  | nil => rfl
  | cons c cs ih =>
    rw [subBadRuns]
    by_cases h : slugChar c = true
    · simp [h, ih]
    · cases b <;> simp [h, ih, show slugChar '_' = true from rfl]

lemma collapse_subset (l : List Char) (b : Bool) (c : Char)
    (hc : c ∈ collapseUnderscores l b) : c ∈ l := by
  induction l generalizing b with
  | nil => simp [collapseUnderscores] at hc
  | cons x xs ih =>
    rw [collapseUnderscores] at hc
    by_cases hx : x = '_'
    · subst hx
      rw [if_pos rfl] at hc
      cases b with
      | true => exact List.mem_cons_of_mem _ (ih _ hc)
      | false =>
        rcases List.mem_cons.mp hc with h1 | h2
        · exact h1 ▸ List.mem_cons_self _ _
        · exact List.mem_cons_of_mem _ (ih _ h2)
    · rw [if_neg hx] at hc
      rcases List.mem_cons.mp hc with h1 | h2
      · exact h1 ▸ List.mem_cons_self _ _
      · exact List.mem_cons_of_mem _ (ih _ h2)

lemma stripEnds_subset (l : List Char) (c : Char) (hc : c ∈ stripEnds l) :
    c ∈ l := by
  rw [stripEnds, List.mem_reverse] at hc
  have hc2 := (List.dropWhile_sublist _).subset hc
  rw [List.mem_reverse] at hc2
  exact (List.dropWhile_sublist _).subset hc2

lemma slugify_all_slug (nfkd : List Char → List Char) (name : List Char) :
    (slugify_filename nfkd name).all slugChar = true := by
  simp only [slugify_filename]
  by_cases he :
      (stripEnds (collapseUnderscores (subBadRuns (asciiIgnore (nfkd
        ((splitOnChar '/' ((splitOnChar '\\' name).getLastD [])).getLastD
          []))) false) false)).isEmpty = true
  · rw [if_pos he]; decide
  · rw [if_neg he]
    rw [List.all_eq_true]
    intro c hc
    have h1 := stripEnds_subset _ _ hc
    have h2 := collapse_subset _ _ _ h1
    have h3 := subBadRuns_all_slug (asciiIgnore (nfkd
      ((splitOnChar '/' ((splitOnChar '\\' name).getLastD [])).getLastD
        []))) false
    rw [List.all_eq_true] at h3
    exact h3 c h2

/-- Claim C9: for every input filename (whatever the NFKD normalization
does to it), and every timestamp made of digits and underscores (the
strftime format `%Y%m%d_%H%M%S` yields nothing else), the stored blob name
consists only of characters in the class letters/digits/dot/underscore/
hyphen — in particular it contains no forward slash and no backslash. -/
theorem c9_blob_name_charset :
    ∀ (ts : List Char) (nfkd : List Char → List Char)
      (file_name : List Char),
      ts.all (fun c => c.isDigit || c == '_') = true →
      (upload_blob_name ts nfkd file_name).all slugChar = true ∧
      (upload_blob_name ts nfkd file_name).all
        (fun c => (c != '/') && (c != '\\')) = true := by
  intro ts nfkd fn hts
  have hall : (upload_blob_name ts nfkd fn).all slugChar = true := by
    rw [upload_blob_name, List.all_append, Bool.and_eq_true]
    refine ⟨?_, ?_⟩
    · rw [List.all_eq_true] at hts ⊢
      intro c hc
      have h := hts c hc
      rw [Bool.or_eq_true] at h
      rcases h with h | h
      · simp [slugChar, h]
      · have hh : c = '_' := by simpa using h
        subst hh; decide
    · rw [List.all_cons, Bool.and_eq_true]
      exact ⟨by decide, slugify_all_slug nfkd fn⟩
  refine ⟨hall, ?_⟩
  rw [List.all_eq_true] at hall ⊢
  intro c hc
  have h := hall c hc
  by_cases h1 : c = '/'
  · subst h1; exact absurd h (by decide)
  · by_cases h2 : c = '\\'
    · subst h2; exact absurd h (by decide)
    · simp [h1, h2]

/-- Witness for C9 at a concrete timestamp and a filename with a path
separator, spaces and non-ASCII characters (NFKD taken as the identity). -/
theorem c9_witness :
    ("20260101_120000".toList.all (fun c => c.isDigit || c == '_')
      = true) ∧
    ((upload_blob_name "20260101_120000".toList id
        "árvíz tűrő/fúró gép.pdf".toList).all slugChar = true ∧
     (upload_blob_name "20260101_120000".toList id
        "árvíz tűrő/fúró gép.pdf".toList).all
          (fun c => (c != '/') && (c != '\\')) = true) :=
  ⟨by decide,
   c9_blob_name_charset "20260101_120000".toList id
     "árvíz tűrő/fúró gép.pdf".toList (by decide)⟩

lemma breakAtChar_none (ch : Char) (l : List Char)
    (h : l.all (fun c => c != ch) = true) : breakAtChar ch l = none := by
  induction l with
  | nil => rfl
  | cons c cs ih =>
    rw [List.all_cons, Bool.and_eq_true] at h
    rw [breakAtChar, if_neg (by simpa using h.1), ih h.2]

lemma dropAfterChar_id (ch : Char) (l : List Char)
    (h : l.all (fun c => c != ch) = true) : dropAfterChar ch l = l := by
  rw [dropAfterChar, breakAtChar_none ch l h]

lemma rstrip_append (p l : List Char) (hne : l ≠ [])
    (h : l.all (fun c => c != '/') = true) :
    rstripSlashes (p ++ l) = p ++ l := by
  rw [rstripSlashes, List.reverse_append]
  cases hrev : l.reverse with
  | nil => exact absurd (List.reverse_eq_nil_iff.mp hrev) hne
  | cons c t =>
    have hc : c ∈ l := by
      rw [← List.mem_reverse, hrev]; exact List.mem_cons_self _ _
    rw [List.all_eq_true] at h
    have hcs : ¬(c = '/') := by simpa using h c hc
    rw [List.cons_append, List.dropWhile_cons, if_neg (by simpa using hcs)]
    rw [show c :: (t ++ p.reverse) = (c :: t) ++ p.reverse from rfl,
      List.reverse_append, List.reverse_reverse, ← hrev, List.reverse_reverse]

lemma splitOnChar_ne_nil (ch : Char) (l : List Char) :
    splitOnChar ch l ≠ [] := by
  cases l with
  | nil => simp [splitOnChar]
  | cons c cs =>
    rw [splitOnChar]
    by_cases h : c = ch
    · simp [h]
    · rcases hr : splitOnChar ch cs with _ | ⟨y, ys⟩ <;> simp [h, hr]

lemma splitOnChar_no_sep (ch : Char) (l : List Char)
    (h : l.all (fun c => c != ch) = true) : splitOnChar ch l = [l] := by
  induction l with
  | nil => rfl
  | cons c cs ih =>
    rw [List.all_cons, Bool.and_eq_true] at h
    rw [splitOnChar, if_neg (by simpa using h.1), ih h.2]

lemma splitOnChar_sep_two (ch : Char) (a seg : List Char) :
    2 ≤ (splitOnChar ch (a ++ ch :: seg)).length := by
  induction a with
  | nil =>
    rw [List.nil_append, splitOnChar, if_pos rfl, List.length_cons]
    have := List.length_pos.mpr (splitOnChar_ne_nil ch seg)
    omega
  | cons x xs ih =>
    rw [List.cons_append, splitOnChar]
    by_cases h : x = ch
    · rw [if_pos h, List.length_cons]
      omega
    · rw [if_neg h]
      rcases hr : splitOnChar ch (xs ++ ch :: seg) with _ | ⟨y, ys⟩
      · exact absurd hr (splitOnChar_ne_nil ch _)
      · rw [hr] at ih
        show 2 ≤ ((x :: y) :: ys).length
        simpa using ih

lemma getLastD_irrel {α : Type} (l : List α) (h : l ≠ []) (d d' : α) :
    l.getLastD d = l.getLastD d' := by
  cases l with
  | nil => contradiction
  | cons a as => rw [List.getLastD_cons, List.getLastD_cons]

lemma getLastD_splitOnChar (ch : Char) (a seg : List Char)
    (h : seg.all (fun c => c != ch) = true) :
    ∀ d, (splitOnChar ch (a ++ ch :: seg)).getLastD d = seg := by
  induction a with
  | nil =>
    intro d
    rw [List.nil_append, splitOnChar, if_pos rfl,
      splitOnChar_no_sep ch seg h, List.getLastD_cons, List.getLastD_cons]
    rfl
  | cons x xs ih =>
    intro d
    rw [List.cons_append, splitOnChar]
    by_cases hx : x = ch
    · rw [if_pos hx, List.getLastD_cons]
      exact ih []
    · rw [if_neg hx]
      rcases hr : splitOnChar ch (xs ++ ch :: seg) with _ | ⟨y, ys⟩
      · exact absurd hr (splitOnChar_ne_nil ch _)
      · have hlen := splitOnChar_sep_two ch xs seg
        rw [hr] at hlen
        have hys : ys ≠ [] := by
          intro hemp
          rw [hemp] at hlen
          simp at hlen
        show ((x :: y) :: ys).getLastD d = seg
        rw [List.getLastD_cons]
        have hih := ih d
        rw [hr, List.getLastD_cons] at hih
        rw [getLastD_irrel ys hys (x :: y) y]
        exact hih

lemma seg_all_proj (l : List Char) (h : l.all urlSegChar = true) :
    l.all (fun c => c != '/') = true ∧ l.all (fun c => c != '?') = true ∧
    l.all (fun c => c != '#') = true ∧ l.all (fun c => c != ';') = true ∧
    l.all (fun c => (c != '\t') && (c != '\r') && (c != '\n')) = true := by
  rw [List.all_eq_true] at h
  refine ⟨?_, ?_, ?_, ?_, ?_⟩ <;> rw [List.all_eq_true] <;> intro c hc <;>
    have hh := h c hc <;>
    rw [urlSegChar, Bool.and_eq_true, Bool.and_eq_true, Bool.and_eq_true,
      Bool.and_eq_true, Bool.and_eq_true, Bool.and_eq_true] at hh
  · exact hh.1.1.1.1.1.1
  · exact hh.1.1.1.1.1.2
  · exact hh.1.1.1.1.2
  · exact hh.1.1.1.2
  · rw [Bool.and_eq_true, Bool.and_eq_true]
    exact ⟨⟨hh.1.1.2, hh.1.2⟩, hh.2⟩

/-- Claim C3: the recovered job id is the last path segment of the
operation-location URL — for any segment made of ordinary characters
(none of the delimiters `urlparse` acts on: no slash, query, fragment,
`;params` or removed control characters), and in particular `abc123`, with
or without a query string; a `;` starts the params of the last segment and
a tab is removed, as in `urlparse`; an empty or unparsable header value
recovers the empty string; and the success response of the batch start
reports `ok = true` whatever the header held. -/
theorem c3_result_id_recovery :
    (∀ seg : String, seg.toList ≠ [] → seg.toList.all urlSegChar = true →
      extract_result_id
        ("https://di.example.com/documentintelligence/documentModels/prebuilt-invoice/analyzeResults/"
          ++ seg) = seg) ∧
    extract_result_id
      "https://di.example.com/documentintelligence/documentModels/prebuilt-invoice/analyzeResults/abc123?api-version=2024-11-30"
      = "abc123" ∧
    extract_result_id
      "https://di.example.com/documentintelligence/documentModels/prebuilt-invoice/analyzeResults/abc;x"
      = "abc" ∧
    extract_result_id
      "https://di.example.com/documentintelligence/documentModels/prebuilt-invoice/analyzeResults/abc\t123"
      = "abc123" ∧
    extract_result_id "" = "" ∧
    extract_result_id "http://[abc/x" = "" ∧
    (∀ operation_location sourceContainer resultContainer : String,
      (batch_start_success operation_location sourceContainer
        resultContainer).ok = true ∧
      (batch_start_success operation_location sourceContainer
        resultContainer).resultId = extract_result_id operation_location) := by
  refine ⟨?_, rfl, rfl, rfl, rfl, rfl, fun _ _ _ => ⟨rfl, rfl⟩⟩
  intro seg hne hall
  obtain ⟨h1, h2, h3, h4, h5⟩ := seg_all_proj seg.toList hall
  have hclean : removeTabCrLf
      (("https://di.example.com/documentintelligence/documentModels/prebuilt-invoice/analyzeResults/"
        ++ seg).toList) =
      "https://di.example.com/documentintelligence/documentModels/prebuilt-invoice/analyzeResults/".toList
        ++ seg.toList := by
    rw [show
      ("https://di.example.com/documentintelligence/documentModels/prebuilt-invoice/analyzeResults/"
        ++ seg).toList =
      "https://di.example.com/documentintelligence/documentModels/prebuilt-invoice/analyzeResults/".toList
        ++ seg.toList from rfl]
    have hbase : List.filter (fun c => (c != '\t') && (c != '\r') && (c != '\n'))
        "https://di.example.com/documentintelligence/documentModels/prebuilt-invoice/analyzeResults/".toList
        = "https://di.example.com/documentintelligence/documentModels/prebuilt-invoice/analyzeResults/".toList := by
      decide
    have hseg : List.filter (fun c => (c != '\t') && (c != '\r') && (c != '\n'))
        seg.toList = seg.toList := by
      rw [List.filter_eq_self]
      rw [List.all_eq_true] at h5
      exact h5
    rw [removeTabCrLf, List.filter_append, hbase, hseg]
  have hh3 :
      ("/documentintelligence/documentModels/prebuilt-invoice/analyzeResults/".toList
        ++ seg.toList).all (fun c => c != '#') = true := by
    rw [List.all_append, Bool.and_eq_true]
    exact ⟨by decide, h3⟩
  have hh2 :
      ("/documentintelligence/documentModels/prebuilt-invoice/analyzeResults/".toList
        ++ seg.toList).all (fun c => c != '?') = true := by
    rw [List.all_append, Bool.and_eq_true]
    exact ⟨by decide, h2⟩
  have hsplit : urlsplitPath
      ("https://di.example.com/documentintelligence/documentModels/prebuilt-invoice/analyzeResults/".toList
        ++ seg.toList) =
      some ("https".toList,
        "/documentintelligence/documentModels/prebuilt-invoice/analyzeResults/".toList
          ++ seg.toList) := by
    rw [show urlsplitPath
        ("https://di.example.com/documentintelligence/documentModels/prebuilt-invoice/analyzeResults/".toList
          ++ seg.toList) =
      some ("https".toList, dropAfterChar '?' (dropAfterChar '#'
        ("/documentintelligence/documentModels/prebuilt-invoice/analyzeResults/".toList
          ++ seg.toList))) from rfl]
    rw [dropAfterChar_id '#' _ hh3, dropAfterChar_id '?' _ hh2]
  have hsemiMem : ';' ∉
      ("/documentintelligence/documentModels/prebuilt-invoice/analyzeResults/".toList
        ++ seg.toList) := by
    intro hmem
    rcases List.mem_append.mp hmem with hm | hm
    · exact absurd hm (by decide)
    · rw [List.all_eq_true] at h4
      have := h4 ';' hm
      simp at this
  have hsemi :
      (("/documentintelligence/documentModels/prebuilt-invoice/analyzeResults/".toList
        ++ seg.toList).elem ';') = false := by
    simpa using hsemiMem
  have hup : urlparsePath
      (("https://di.example.com/documentintelligence/documentModels/prebuilt-invoice/analyzeResults/"
        ++ seg).toList) =
      some ("/documentintelligence/documentModels/prebuilt-invoice/analyzeResults/".toList
        ++ seg.toList) := by
    rw [urlparsePath, hclean, hsplit]
    show (if usesParams.contains "https".toList &&
        (("/documentintelligence/documentModels/prebuilt-invoice/analyzeResults/".toList
          ++ seg.toList).elem ';') then
        some (dropParams
          ("/documentintelligence/documentModels/prebuilt-invoice/analyzeResults/".toList
            ++ seg.toList))
      else
        some ("/documentintelligence/documentModels/prebuilt-invoice/analyzeResults/".toList
          ++ seg.toList)) =
      some ("/documentintelligence/documentModels/prebuilt-invoice/analyzeResults/".toList
        ++ seg.toList)
    rw [hsemi]
    simp
  rw [extract_result_id, hup]
  show ((splitOnChar '/' (rstripSlashes
    ("/documentintelligence/documentModels/prebuilt-invoice/analyzeResults/".toList
      ++ seg.toList))).getLastD []).asString = seg
  rw [rstrip_append _ _ hne h1]
  rw [show
    "/documentintelligence/documentModels/prebuilt-invoice/analyzeResults/".toList
      ++ seg.toList =
    "/documentintelligence/documentModels/prebuilt-invoice/analyzeResults".toList
      ++ '/' :: seg.toList from rfl]
  rw [getLastD_splitOnChar '/' _ _ h1 []]
  exact String.asString_toList seg

/-- Witness for C3 at the concrete segment `abc123`. -/
theorem c3_witness :
    extract_result_id
      ("https://di.example.com/documentintelligence/documentModels/prebuilt-invoice/analyzeResults/"
        ++ "abc123") = "abc123" :=
  c3_result_id_recovery.1 "abc123" (by decide) (by decide)

end Invoice
